import Mathlib

/-!
# terraform-provider-vyos: configuration cache, navigator and update batch

A shallow embedding of `internal/vyos/config.go` and of the resource operations of
`internal/provider/config_resource.go`, followed by the properties proved about them.

Modelling conventions.

* A Go `string` is a Lean `String`.  The only separator the code ever splits on is the
  single byte 0x20, which never occurs inside a multi-byte UTF-8 sequence, so splitting
  the character sequence is the same as splitting the byte sequence.
* A Go `any` holding decoded JSON is a `GoAny`.  A `map[string]any` is a list of entries
  in iteration order, indexed by first match; a nil map is distinguished from an empty one.
* A Go `error` is an `Error`; errors made outside this repository are identified by
  their text.
* The API client of the imported library is a function from the history of calls and the
  current call to the answer; every call issued is appended to a log, so "no remote call
  was made" is the statement that the log did not grow.  `VyosConfig` carries the log of
  its `apiClient`; the resource, whose only field is the library client, is that log.
* The mutex of `VyosConfig` only serialises callers; the operations are modelled as the
  sequential state transformers that each critical section is.
-/

namespace Vyos

/-! ## Values -/

/-- Values of Go type `any` as they occur in this program: the nil interface (JSON
`null`), `bool`, `float64` (carried as an uninterpreted payload), `string`, `[]any`,
a non-nil `map[string]any` with its entries, and a nil `map[string]any` held in an
interface. -/
inductive GoAny where
  | nil
  | bool (b : Bool)
  | number (n : Int)
  | string (s : String)
  | slice (xs : List GoAny)
  | map (m : List (String × GoAny))
  | nilMap

/-- A value of Go type `map[string]any`: `none` is the nil map. -/
abbrev GoMap := Option (List (String × GoAny))

/-- Go's two-result index expression `m[k]`: `none` stands for `ok = false`.
Indexing a nil map finds nothing. -/
def GoMap.index (m : GoMap) (k : String) : Option GoAny :=
  match m with
  | none => none
  | some es => es.lookup k

/-- Go's one-result index expression `m[k]`: the zero value (nil) when absent. -/
def GoMap.indexOrNil (m : GoMap) (k : String) : GoAny :=
  (m.index k).getD GoAny.nil

/-- Conversion of a map to `any` when it is returned as an interface value. -/
def GoMap.toAny : GoMap → GoAny
  | none => GoAny.nilMap
  | some m => GoAny.map m

/-- The checked type assertion `v.(map[string]interface{})`: `none` is `ok = false`. -/
def GoAny.assertMap : GoAny → Option GoMap
  | GoAny.map m => some (some m)
  | GoAny.nilMap => some none
  | _ => none

/-- The comparison `v != nil` on an interface value (a nil map in an interface is not
the nil interface). -/
def GoAny.isNil : GoAny → Bool
  | GoAny.nil => true
  | _ => false

/-- Go `error` values.  `external` is an error produced by the API client, by
`json.Unmarshal` or by `client.Flatten`, identified by its text; `unexpectedResponse` is
`errors.New("received unexpected repsonse format from server")`; `malformed rval` is
`fmt.Errorf("malformed configTree at %#v", rval)`. -/
inductive Error where
  | external (msg : String)
  | unexpectedResponse
  | malformed (rval : GoAny)

/-! ## Strings -/

/-- Cut a character sequence at every occurrence of `sep`; always yields at least one
piece. -/
def splitChars (sep : Char) : List Char → List (List Char)
  | [] => [[]]
  | c :: cs =>
    if c = sep then [] :: splitChars sep cs
    else
      match splitChars sep cs with
      | [] => [[c]]
      | h :: t => (c :: h) :: t

/-- Go's `strings.Split(s, sep)` for a one-character separator. -/
def strings.Split (s : String) (sep : Char) : List String :=
  (splitChars sep s.data).map String.mk

/-- Go's `strings.Join(elems, sep)`. -/
def strings.Join : List String → String → String
  | [], _ => ""
  | [a], _ => a
  | a :: b :: rest, sep => a ++ sep ++ strings.Join (b :: rest) sep

/-- Go's `strings.Contains(s, substr)`. -/
def strings.Contains (s substr : String) : Bool :=
  decide (substr.data <:+: s.data)

/-! ## The navigator -/

/-- The function `getConfigFromPath` of `internal/vyos/config.go`. -/
def getConfigFromPath (configTree : GoMap) : List String → Except Error GoAny
  | [] => Except.ok configTree.toAny
  | k :: rest =>
    match configTree.index k with
    | none => Except.ok GoAny.nil
    | some rval =>
      match rest with
      | [] => Except.ok rval
      | _ :: _ =>
        match rval.assertMap with
        | none => Except.error (Error.malformed rval)
        | some sub => getConfigFromPath sub rest

/-! ## The cache -/

/-- One operation record of a batch: `\x7b"op": "delete", "path": p\x7d` or
`\x7b"op": "set", "path": p, "value": v\x7d`. -/
inductive Operation where
  | delete (path : List String)
  | set (path : List String) (value : GoAny)

/-- Payloads handed to `Request`: the whole-tree fetch
`\x7b"op": "showConfig", "path": []\x7d` and a batch of operations. -/
inductive Payload where
  | showConfig
  | batch (ops : List Operation)

/-- The calls this program makes on the API client: `Request`, and the methods `Show`,
`Set`, `Delete`, `Save` and `SaveFile` of its `Config` service. -/
inductive RemoteCall where
  | request (endpoint : String) (payload : Payload)
  | configShow (path : String)
  | configSet (path : String) (value : GoAny)
  | configDelete (path : String)
  | configSave
  | configSaveFile (file : String)

/-- The API client seen from this program: given the calls sent before and the call
made now, either an error (its text) or a response value. -/
abbrev Remote := List RemoteCall → RemoteCall → Except String GoAny

/-- The struct `VyosConfig`.  `cachedConfig` is the pointer field (`none` is the nil
pointer, `some t` a pointer to the map `t`, which may itself be the nil map); `sent` is
the log of the calls issued through `apiClient`, oldest first. -/
structure VyosConfig where
  skipSaving : Bool
  saveFile : String
  cachedConfig : Option GoMap
  sent : List RemoteCall

/-- The constructor `New`: nothing cached, nothing sent. -/
def New (skipSaving : Bool) (saveFile : String) : VyosConfig :=
  { skipSaving := skipSaving, saveFile := saveFile, cachedConfig := none, sent := [] }

/-- Issue one call on the API client and log it. -/
def VyosConfig.call (api : Remote) (vc : VyosConfig) (c : RemoteCall) :
    Except String GoAny × VyosConfig :=
  (api vc.sent c, { vc with sent := vc.sent ++ [c] })

/-- The method `SaveIfRequired`; `none` is a nil error. -/
def VyosConfig.SaveIfRequired (api : Remote) (vc : VyosConfig) : Option Error × VyosConfig :=
  if vc.skipSaving then (none, vc)
  else if vc.saveFile = "" then
    match vc.call api RemoteCall.configSave with
    | (Except.error msg, vc1) => (some (Error.external msg), vc1)
    | (Except.ok _, vc1) => (none, vc1)
  else
    match vc.call api (RemoteCall.configSaveFile vc.saveFile) with
    | (Except.error msg, vc1) => (some (Error.external msg), vc1)
    | (Except.ok _, vc1) => (none, vc1)

/-- The method `getRemoteConfig`. -/
def VyosConfig.getRemoteConfig (api : Remote) (vc : VyosConfig) :
    Except Error GoMap × VyosConfig :=
  match vc.call api (RemoteCall.request "retrieve" Payload.showConfig) with
  | (Except.error msg, vc1) =>
    if strings.Contains msg "could not fetch config" then (Except.ok none, vc1)
    else (Except.error (Error.external msg), vc1)
  | (Except.ok resp, vc1) =>
    match resp.assertMap with
    | none => (Except.error Error.unexpectedResponse, vc1)
    | some obj => (Except.ok obj, vc1)

/-- The method `GetFullConfig`; the result is the map the returned pointer points to. -/
def VyosConfig.GetFullConfig (api : Remote) (vc : VyosConfig) :
    Except Error GoMap × VyosConfig :=
  match vc.cachedConfig with
  | some t => (Except.ok t, vc)
  | none =>
    match vc.getRemoteConfig api with
    | (Except.error err, vc1) => (Except.error err, vc1)
    | (Except.ok config, vc1) => (Except.ok config, { vc1 with cachedConfig := some config })

/-- The method `invalidateConfigCache`. -/
def VyosConfig.invalidateConfigCache (vc : VyosConfig) : VyosConfig :=
  { vc with cachedConfig := none }

/-- The method `Show`. -/
def VyosConfig.Show (api : Remote) (vc : VyosConfig) (path : String) :
    Except Error GoAny × VyosConfig :=
  let path_components := if path = "" then [] else strings.Split path ' '
  match vc.GetFullConfig api with
  | (Except.error err, vc1) => (Except.error err, vc1)
  | (Except.ok fullConfig, vc1) => (getConfigFromPath fullConfig path_components, vc1)

/-- The method `Set`; `none` is a nil error. -/
def VyosConfig.Set (api : Remote) (vc : VyosConfig) (path : String) (value : GoAny) :
    Option Error × VyosConfig :=
  match vc.invalidateConfigCache.call api (RemoteCall.configSet path value) with
  | (Except.error msg, vc1) => (some (Error.external msg), vc1)
  | (Except.ok _, vc1) => vc1.SaveIfRequired api

/-- The method `Delete`; `none` is a nil error. -/
def VyosConfig.Delete (api : Remote) (vc : VyosConfig) (path : String) :
    Option Error × VyosConfig :=
  match vc.invalidateConfigCache.call api (RemoteCall.configDelete path) with
  | (Except.error msg, vc1) => (some (Error.external msg), vc1)
  | (Except.ok _, vc1) => vc1.SaveIfRequired api

/-- The method `ApiRequest`: a plain pass-through to the API client. -/
def VyosConfig.ApiRequest (api : Remote) (vc : VyosConfig) (endpoint : String)
    (payload : Payload) : Except Error GoAny × VyosConfig :=
  match vc.call api (RemoteCall.request endpoint payload) with
  | (Except.error msg, vc1) => (Except.error (Error.external msg), vc1)
  | (Except.ok resp, vc1) => (Except.ok resp, vc1)

/-! ## The resource -/

/-- The framework type `types.String`: null, unknown or a known value. -/
inductive TfString where
  | null
  | unknown
  | value (s : String)

/-- The method `ValueString`: the known value, the empty string otherwise. -/
def TfString.ValueString : TfString → String
  | TfString.value s => s
  | _ => ""

/-- The struct `ConfigResourceModel`. -/
structure ConfigResourceModel where
  Path : TfString
  Value : TfString
  Id : TfString

/-- Error diagnostics added by the resource: `AddError("No", err.Error())` for an error
value, and the "already exists" diagnostic of `Create` with the path and the value found. -/
inductive Diag where
  | error (err : Error)
  | alreadyExists (path : String) (existing : GoAny)

/-- How a resource operation ends: the state it saved, the error diagnostic it
reported, or a run-time panic. -/
inductive Response where
  | state (data : ConfigResourceModel)
  | diagnostics (d : Diag)
  | panic

/-- The struct `ConfigResource` has one field, `client *client.Client`, the client of
the imported library; it is modelled by the log of the calls made on it.  This issues
one call on that client and logs it. -/
def ConfigResource.call (api : Remote) (sent : List RemoteCall) (c : RemoteCall) :
    Except String GoAny × List RemoteCall :=
  (api sent c, sent ++ [c])

/-- Lines 125 to 146 of `Create`: decode the value, set it with the library's
`r.client.Config.Set`, save the state with the id set to the path.  `decode` is
`json.Unmarshal` into an `any`. -/
def ConfigResource.Create.write (api : Remote) (decode : String → Except String GoAny)
    (sent : List RemoteCall) (data : ConfigResourceModel) : Response × List RemoteCall :=
  match decode data.Value.ValueString with
  | Except.error msg => (Response.diagnostics (Diag.error (Error.external msg)), sent)
  | Except.ok jsonValue =>
    match ConfigResource.call api sent
        (RemoteCall.configSet data.Path.ValueString jsonValue) with
    | (Except.error msg, sent1) =>
      (Response.diagnostics (Diag.error (Error.external msg)), sent1)
    | (Except.ok _, sent1) =>
      (Response.state { data with Id := TfString.value data.Path.ValueString }, sent1)

/-- The method `ConfigResource.Create`.  The parent is read with the library's
`r.client.Config.Show`, whose answer, a value of type `any` or an error, is the remote's;
the unchecked assertion `parent.(map[string]any)` panics on a value that is not a map. -/
def ConfigResource.Create (api : Remote) (decode : String → Except String GoAny)
    (sent : List RemoteCall) (data : ConfigResourceModel) : Response × List RemoteCall :=
  let components := strings.Split data.Path.ValueString ' '
  let parentPath := strings.Join components.dropLast " "
  let terminal := components.getLastD ""
  match ConfigResource.call api sent (RemoteCall.configShow parentPath) with
  | (Except.error msg, sent1) =>
    (Response.diagnostics (Diag.error (Error.external msg)), sent1)
  | (Except.ok parent, sent1) =>
    if parent.isNil then ConfigResource.Create.write api decode sent1 data
    else
      match parent.assertMap with
      | none => (Response.panic, sent1)
      | some m =>
        let existing := m.indexOrNil terminal
        if existing.isNil then ConfigResource.Create.write api decode sent1 data
        else (Response.diagnostics (Diag.alreadyExists data.Path.ValueString existing), sent1)

/-- One turn of the loop of `Update` (lines 216 to 230): the path string of the set
operation for the relative path `subpath` under the target `path`. -/
def ConfigResource.Update.prefixpath (path subpath : String) : String :=
  (if path ≠ "" ∧ subpath ≠ "" then path ++ " " else path) ++ subpath

/-- The batch `payload` built by `Update` (lines 194 to 199 and 216 to 230) for the
target path and the pairs returned by the flattener. -/
def ConfigResource.Update.payload (path : String) (flat : List (String × GoAny)) :
    List Operation :=
  flat.foldl
    (fun payload pair =>
      payload ++ [Operation.set
        (strings.Split (ConfigResource.Update.prefixpath path pair.1) ' ') pair.2])
    [Operation.delete (strings.Split path ' ')]

/-- The method `ConfigResource.Update`.  `decode` is `json.Unmarshal` into an `any`,
`flatten` is `client.Flatten` of the imported API client library.  The source sends the
batch with `r.client.Request` on the library client; that is the very call
`VyosConfig.ApiRequest` passes through, so the operation is written over a `VyosConfig`
built on that client, of which it reads and changes nothing but the log of calls. -/
def ConfigResource.Update (api : Remote) (decode : String → Except String GoAny)
    (flatten : GoAny → Except String (List (String × GoAny)))
    (vc : VyosConfig) (plan _state : ConfigResourceModel) : Response × VyosConfig :=
  match decode plan.Value.ValueString with
  | Except.error msg => (Response.diagnostics (Diag.error (Error.external msg)), vc)
  | Except.ok value =>
    match flatten value with
    | Except.error msg => (Response.diagnostics (Diag.error (Error.external msg)), vc)
    | Except.ok flat =>
      match vc.ApiRequest api "configure"
          (Payload.batch (ConfigResource.Update.payload plan.Path.ValueString flat)) with
      | (Except.error err, vc1) => (Response.diagnostics (Diag.error err), vc1)
      | (Except.ok _, vc1) => (Response.state plan, vc1)

/-- The method `ConfigResource.ImportState`: the attributes `id` and `path` of the
state are both set to the import ID. -/
def ConfigResource.ImportState (state : ConfigResourceModel) (ID : String) :
    ConfigResourceModel :=
  { state with Id := TfString.value ID, Path := TfString.value ID }

/-! ## Reference notions used to state the properties -/

/-- The statement that `path`, a non-empty list of segments, leads through nested maps
of `tree` to the stored value `v`: every segment is a key of the map reached so far, and
every value before the last is itself a map. -/
inductive Resolves : GoMap → List String → GoAny → Prop where
  | last {tree : GoMap} {k : String} {v : GoAny} :
      tree.index k = some v → Resolves tree [k] v
  | step {tree sub : GoMap} {k k2 : String} {ks : List String} {w v : GoAny} :
      tree.index k = some w → w.assertMap = some sub →
      Resolves sub (k2 :: ks) v → Resolves tree (k :: k2 :: ks) v

/-- The statement that the walk along `pre` arrives at the map `m`: either no segment
has been consumed and `m` is the tree, or `pre` resolves to a value that is the map `m`. -/
def ReachesMap (tree : GoMap) (pre : List String) (m : GoMap) : Prop :=
  (pre = [] ∧ m = tree) ∨ ∃ v, Resolves tree pre v ∧ v.assertMap = some m

/-- The tree of the end-to-end example:
`\x7b"firewall":\x7b"name":\x7b"TEST":\x7b"default-action":"drop"\x7d\x7d\x7d\x7d`. -/
def firewallTree : GoMap :=
  some [("firewall", GoAny.map [("name", GoAny.map [("TEST",
    GoAny.map [("default-action", GoAny.string "drop")])])])]

/-- The firewall example after `default-action` has been changed to `accept`. -/
def acceptTree : GoMap :=
  some [("firewall", GoAny.map [("name", GoAny.map [("TEST",
    GoAny.map [("default-action", GoAny.string "accept")])])])]

/-- A remote for the examples: it answers with the firewall tree as long as no call has
been sent to it, and with the changed tree once one has. -/
def trackingRemote : Remote :=
  fun sent _ => if sent.isEmpty then Except.ok firewallTree.toAny else Except.ok acceptTree.toAny

/-- A remote for the examples, for a device whose configuration holds the string `x`
at `a`: the library's `Config.Show` of the path `a` is answered with that string, every
other `Show` with nil, and every other call succeeds. -/
def scalarRemote : Remote :=
  fun _ c =>
    match c with
    | RemoteCall.configShow path =>
      if path = "a" then Except.ok (GoAny.string "x") else Except.ok GoAny.nil
    | _ => Except.ok GoAny.nil

/-- The plan of the examples: the path `firewall name TEST` with a given value text. -/
def firewallPlan (value : String) : ConfigResourceModel :=
  { Path := TfString.value "firewall name TEST", Value := TfString.value value,
    Id := TfString.value "firewall name TEST" }

/-! ## The flattener -/

/-- The entries of an object arranged by key, lexicographically ascending. -/
def sortByKey (m : List (String × GoAny)) : List (String × GoAny) :=
  m.insertionSort (fun a b => a.1 ≤ b.1)

/-- Modelled from the spec: the flattener `client.Flatten` that `Update` calls belongs to
the imported API client library and its source is not part of this repository.  This is
the algorithm of section 4.3 of the specification: an object without entries and null
give the single pair of the empty path and the presence flag (the empty object); an
object with entries is visited key by key in lexicographically sorted order, each key
prepended to every relative path of its flattened child, the results concatenated in key
order; a scalar or a list is a single leaf at the empty path. -/
def Flatten : GoAny → List (List String × GoAny)
  | GoAny.nil => [([], GoAny.map [])]
  | GoAny.nilMap => [([], GoAny.map [])]
  | GoAny.map [] => [([], GoAny.map [])]
  | GoAny.map (e :: es) =>
    (sortByKey (e :: es)).attach.flatMap fun x =>
      (Flatten x.1.2).map fun p => (x.1.1 :: p.1, p.2)
  | v => [([], v)]
termination_by v => sizeOf v
decreasing_by
  have hm : x.1 ∈ e :: es := (List.perm_insertionSort _ (e :: es)).subset x.2
  have h1 := List.sizeOf_lt_of_mem hm
  have h2 : sizeOf x.1.2 < sizeOf x.1 := by
    cases x.1; simp
  simp only [GoAny.map.sizeOf_spec]
  omega

/-- Two values that differ only in the iteration order of their objects, at any depth
outside lists: the closure of permuting the entries of an object with distinct keys and
of replacing the child under a key by a reordering of it. -/
inductive Reorder : GoAny → GoAny → Prop where
  | refl (v : GoAny) : Reorder v v
  | trans {a b c : GoAny} : Reorder a b → Reorder b c → Reorder a c
  | perm {m m2 : List (String × GoAny)} :
      (m.map Prod.fst).Nodup → m.Perm m2 → Reorder (GoAny.map m) (GoAny.map m2)
  | child {k : String} {v v2 : GoAny} {m : List (String × GoAny)} :
      Reorder v v2 → Reorder (GoAny.map ((k, v) :: m)) (GoAny.map ((k, v2) :: m))

/-! ## Properties of the navigator -/

theorem getConfigFromPath_nil (tree : GoMap) :
    getConfigFromPath tree [] = Except.ok tree.toAny := by
  simp [getConfigFromPath]

theorem getConfigFromPath_absent (tree : GoMap) (k : String) (rest : List String)
    (h : tree.index k = none) : getConfigFromPath tree (k :: rest) = Except.ok GoAny.nil := by
  simp [getConfigFromPath, h]

theorem getConfigFromPath_of_resolves {tree : GoMap} {path : List String} {v : GoAny}
    (h : Resolves tree path v) : getConfigFromPath tree path = Except.ok v := by
  induction h with
  | last hk => simp [getConfigFromPath, hk]
  | step hk hw _ ih =>
    rw [getConfigFromPath]
    simp only [hk, hw]
    exact ih

theorem Resolves.ne_nil {tree : GoMap} {path : List String} {v : GoAny}
    (h : Resolves tree path v) : path ≠ [] := by
  cases h <;> simp

/-- Walking past a resolved prefix: the navigator fails on a value that is not a map and
otherwise carries on inside it with the remaining segments. -/
theorem getConfigFromPath_append {tree : GoMap} {pre : List String} {v : GoAny}
    (h : Resolves tree pre v) (k : String) (rest : List String) :
    getConfigFromPath tree (pre ++ k :: rest) =
      match v.assertMap with
      | none => Except.error (Error.malformed v)
      | some m => getConfigFromPath m (k :: rest) := by
  induction h with
  | last hk =>
    simp only [List.singleton_append]
    rw [getConfigFromPath]
    simp only [hk]
  | step hk hw _ ih =>
    simp only [List.cons_append] at ih ⊢
    rw [getConfigFromPath]
    simp only [hk, hw]
    exact ih

theorem getConfigFromPath_error_prefix {tree : GoMap} {path : List String} {e : Error} :
    getConfigFromPath tree path = Except.error e →
      ∃ pre rest v, pre ≠ [] ∧ rest ≠ [] ∧ path = pre ++ rest ∧ Resolves tree pre v ∧
        v.assertMap = none ∧ e = Error.malformed v := by
  induction path generalizing tree with
  | nil => intro h; simp [getConfigFromPath] at h
  | cons k rest ih =>
    intro h
    rw [getConfigFromPath] at h
    cases hk : tree.index k with
    | none => simp [hk] at h
    | some rval =>
      simp only [hk] at h
      cases rest with
      | nil => simp at h
      | cons k2 ks =>
        simp only at h
        cases hw : rval.assertMap with
        | none =>
          simp only [hw] at h
          refine ⟨[k], k2 :: ks, rval, by simp, by simp, by simp, Resolves.last hk, hw, ?_⟩
          cases h
          rfl
        | some sub =>
          simp only [hw] at h
          obtain ⟨pre, rest2, v, hpre, hrest, hsplit, hres, hv, he⟩ := ih h
          cases pre with
          | nil => exact absurd rfl hpre
          | cons p ps =>
            simp only [List.cons_append, List.cons.injEq] at hsplit
            obtain ⟨hp, hps⟩ := hsplit
            subst hp
            refine ⟨k :: k2 :: ps, rest2, v, by simp, hrest, by simp [hps], ?_, hv, he⟩
            exact Resolves.step hk hw hres

theorem Show_eq (api : Remote) (vc vc1 : VyosConfig) (tree : GoMap) (path : String)
    (h : vc.GetFullConfig api = (Except.ok tree, vc1)) :
    vc.Show api path =
      (getConfigFromPath tree (if path = "" then [] else strings.Split path ' '), vc1) := by
  simp [VyosConfig.Show, h]

theorem splitChars_ne_nil (sep : Char) (l : List Char) : splitChars sep l ≠ [] := by
  cases l with
  | nil => simp [splitChars]
  | cons c cs =>
    rw [splitChars]
    split
    · simp
    · split <;> simp

theorem splitChars_of_not_mem (sep : Char) (l : List Char) (h : sep ∉ l) :
    splitChars sep l = [l] := by
  induction l with
  | nil => simp [splitChars]
  | cons c cs ih =>
    have hc : c ≠ sep := fun e => h (by simp [e])
    have hcs : sep ∉ cs := fun e => h (by simp [e])
    rw [splitChars, if_neg hc, ih hcs]

theorem splitChars_append_sep (sep : Char) (a b : List Char) :
    splitChars sep (a ++ sep :: b) = splitChars sep a ++ splitChars sep b := by
  induction a with
  | nil => simp [splitChars]
  | cons c cs ih =>
    by_cases hc : c = sep
    · simp [splitChars, hc, ih]
    · cases hs : splitChars sep cs with
      | nil => exact absurd hs (splitChars_ne_nil sep cs)
      | cons h t =>
        rw [hs] at ih
        rw [List.cons_append, splitChars, if_neg hc, ih, splitChars, if_neg hc, hs]
        rfl

theorem Split_append_space (a b : String) :
    strings.Split (a ++ " " ++ b) ' ' = strings.Split a ' ' ++ strings.Split b ' ' := by
  have h : (a ++ " " ++ b).data = a.data ++ ' ' :: b.data := by
    simp [String.data_append]
  simp [strings.Split, h, splitChars_append_sep]

theorem Split_of_no_space (s : String) (h : ' ' ∉ s.data) : strings.Split s ' ' = [s] := by
  simp [strings.Split, splitChars_of_not_mem _ _ h]

theorem Split_Join (segs : List String) (hne : segs ≠ []) (h : ∀ s ∈ segs, ' ' ∉ s.data) :
    strings.Split (strings.Join segs " ") ' ' = segs := by
  induction segs with
  | nil => exact absurd rfl hne
  | cons a rest ih =>
    cases rest with
    | nil => simpa [strings.Join] using Split_of_no_space a (h a (by simp))
    | cons b rest2 =>
      rw [strings.Join, Split_append_space, Split_of_no_space a (h a (by simp)),
        ih (by simp) (fun s hs => h s (List.mem_cons_of_mem _ hs))]
      rfl

theorem Join_ne_empty (segs : List String) (hne : segs ≠ []) (h : ∀ s ∈ segs, s ≠ "") :
    strings.Join segs " " ≠ "" := by
  cases segs with
  | nil => exact absurd rfl hne
  | cons a rest =>
    have ha : a ≠ "" := h a (by simp)
    have hd : a.data ≠ [] := fun e => ha (String.ext e)
    cases rest with
    | nil => simpa [strings.Join] using ha
    | cons b rest2 =>
      intro e
      have := congrArg String.data e
      simp [strings.Join, String.data_append, hd] at this

/-! ## C1 to C3: what `Show` returns -/

/-- C1: whenever the segments of a path lead through nested objects to a stored value,
`getConfigFromPath` returns exactly that value and no error, and so does `Show` for the
wire form of the path; the empty path gives the whole tree unchanged; on the firewall
example `firewall name TEST` gives the object with `default-action` and
`firewall name TEST default-action` gives `drop`. -/
theorem show_returns_stored_value :
    (∀ (tree : GoMap) (path : List String) (v : GoAny),
        Resolves tree path v → getConfigFromPath tree path = Except.ok v) ∧
    (∀ tree : GoMap, getConfigFromPath tree [] = Except.ok tree.toAny) ∧
    (∀ (api : Remote) (vc vc1 : VyosConfig) (tree : GoMap),
        vc.GetFullConfig api = (Except.ok tree, vc1) →
        vc.Show api "" = (Except.ok tree.toAny, vc1)) ∧
    (∀ (api : Remote) (vc vc1 : VyosConfig) (tree : GoMap) (segs : List String) (v : GoAny),
        vc.GetFullConfig api = (Except.ok tree, vc1) →
        (∀ s ∈ segs, s ≠ "" ∧ ' ' ∉ s.data) →
        Resolves tree segs v →
        vc.Show api (strings.Join segs " ") = (Except.ok v, vc1)) ∧
    (∀ (api : Remote) (vc vc1 : VyosConfig),
        vc.GetFullConfig api = (Except.ok firewallTree, vc1) →
        vc.Show api "firewall name TEST" =
          (Except.ok (GoAny.map [("default-action", GoAny.string "drop")]), vc1) ∧
        vc.Show api "firewall name TEST default-action" =
          (Except.ok (GoAny.string "drop"), vc1)) := by
  refine ⟨fun _ _ _ h => getConfigFromPath_of_resolves h, getConfigFromPath_nil, ?_, ?_, ?_⟩
  · intro api vc vc1 tree h
    rw [Show_eq api vc vc1 tree "" h]
    simp [getConfigFromPath]
  · intro api vc vc1 tree segs v h hsegs hres
    have hne : segs ≠ [] := hres.ne_nil
    rw [Show_eq api vc vc1 tree _ h,
      if_neg (Join_ne_empty segs hne (fun s hs => (hsegs s hs).1)),
      Split_Join segs hne (fun s hs => (hsegs s hs).2),
      getConfigFromPath_of_resolves hres]
  · intro api vc vc1 h
    rw [Show_eq api vc vc1 _ _ h, Show_eq api vc vc1 _ _ h]
    exact ⟨rfl, rfl⟩

/-- A run of C1 on the firewall example: with the tree cached, the three segments
`firewall`, `name`, `TEST` resolve to the stored object, and `Show` returns it. -/
theorem show_returns_stored_value_witness :
    Resolves firewallTree ["firewall", "name", "TEST"]
      (GoAny.map [("default-action", GoAny.string "drop")]) ∧
    (VyosConfig.mk false "" (some firewallTree) []).Show (fun _ _ => Except.ok GoAny.nil)
        (strings.Join ["firewall", "name", "TEST"] " ") =
      (Except.ok (GoAny.map [("default-action", GoAny.string "drop")]),
        VyosConfig.mk false "" (some firewallTree) []) :=
  have hres : Resolves firewallTree ["firewall", "name", "TEST"]
      (GoAny.map [("default-action", GoAny.string "drop")]) :=
    Resolves.step rfl rfl
      (Resolves.step rfl rfl (Resolves.last rfl))
  ⟨hres, show_returns_stored_value.2.2.2.1 (fun _ _ => Except.ok GoAny.nil)
    (VyosConfig.mk false "" (some firewallTree) []) _ firewallTree
    ["firewall", "name", "TEST"] _ rfl (by decide) hres⟩

/-- C2: for every tree, the nil tree included, and every non-empty path, when the walk
arrives at an object (the tree itself, or an object reached through nested objects) that
lacks the next segment, `getConfigFromPath` returns nil and no error, and so does
`Show`; `firewall name OTHER` on the firewall example is such a path. -/
theorem show_absent_segment_is_nil :
    (∀ (tree m : GoMap) (pre : List String) (k : String) (rest : List String),
        ReachesMap tree pre m → m.index k = none →
        getConfigFromPath tree (pre ++ k :: rest) = Except.ok GoAny.nil) ∧
    (∀ (k : String) (rest : List String),
        getConfigFromPath none (k :: rest) = Except.ok GoAny.nil) ∧
    (∀ (api : Remote) (vc vc1 : VyosConfig) (tree m : GoMap) (pre : List String)
        (k : String) (rest : List String),
        vc.GetFullConfig api = (Except.ok tree, vc1) →
        (∀ s ∈ pre ++ k :: rest, s ≠ "" ∧ ' ' ∉ s.data) →
        ReachesMap tree pre m → m.index k = none →
        vc.Show api (strings.Join (pre ++ k :: rest) " ") = (Except.ok GoAny.nil, vc1)) ∧
    (∀ (api : Remote) (vc vc1 : VyosConfig),
        vc.GetFullConfig api = (Except.ok firewallTree, vc1) →
        vc.Show api "firewall name OTHER" = (Except.ok GoAny.nil, vc1)) := by
  have hnav : ∀ (tree m : GoMap) (pre : List String) (k : String) (rest : List String),
      ReachesMap tree pre m → m.index k = none →
      getConfigFromPath tree (pre ++ k :: rest) = Except.ok GoAny.nil := ?_
  refine ⟨hnav, fun k rest => getConfigFromPath_absent none k rest rfl, ?_, ?_⟩
  · intro api vc vc1 tree m pre k rest h hsegs hreach hk
    rw [Show_eq api vc vc1 tree _ h,
      if_neg (Join_ne_empty _ (by simp) (fun s hs => (hsegs s hs).1)),
      Split_Join _ (by simp) (fun s hs => (hsegs s hs).2)]
    rw [hnav tree m pre k rest hreach hk]
  · intro api vc vc1 h
    rw [Show_eq api vc vc1 _ _ h]
    rfl
  intro tree m pre k rest hreach hk
  rcases hreach with ⟨hpre, hm⟩ | ⟨v, hres, hv⟩
  · subst hpre hm
    exact getConfigFromPath_absent _ k rest hk
  · rw [getConfigFromPath_append hres k rest]
    simp only [hv]
    exact getConfigFromPath_absent _ k rest hk

/-- A run of C2 on the firewall example: the walk along `firewall`, `name` arrives at
an object without the key `OTHER`. -/
theorem show_absent_segment_is_nil_witness :
    ReachesMap firewallTree ["firewall", "name"]
      (some [("TEST", GoAny.map [("default-action", GoAny.string "drop")])]) ∧
    getConfigFromPath firewallTree (["firewall", "name"] ++ "OTHER" :: ["x"]) =
      Except.ok GoAny.nil :=
  have hreach : ReachesMap firewallTree ["firewall", "name"]
      (some [("TEST", GoAny.map [("default-action", GoAny.string "drop")])]) :=
    Or.inr ⟨_, Resolves.step rfl rfl (Resolves.last rfl), rfl⟩
  ⟨hreach, show_absent_segment_is_nil.1 firewallTree _ ["firewall", "name"] "OTHER" ["x"]
    hreach rfl⟩

/-- C3: `getConfigFromPath` fails exactly when a non-empty proper prefix of the path
resolves through nested objects to a value that is not an object while segments remain,
and the error is then the malformed-tree error for that value; `Show` on a fetched tree
fails exactly when `getConfigFromPath` does; the tree with `a` holding a scalar fails on
the path `a b`. -/
theorem getConfigFromPath_error_iff :
    (∀ (tree : GoMap) (path : List String) (e : Error),
        getConfigFromPath tree path = Except.error e ↔
          ∃ pre rest v, pre ≠ [] ∧ rest ≠ [] ∧ path = pre ++ rest ∧ Resolves tree pre v ∧
            v.assertMap = none ∧ e = Error.malformed v) ∧
    (∀ (api : Remote) (vc vc1 : VyosConfig) (tree : GoMap) (path : String),
        vc.GetFullConfig api = (Except.ok tree, vc1) →
        (vc.Show api path).1 =
          getConfigFromPath tree (if path = "" then [] else strings.Split path ' ')) ∧
    (∀ (api : Remote) (vc vc1 : VyosConfig),
        vc.GetFullConfig api = (Except.ok (some [("a", GoAny.string "scalar")]), vc1) →
        vc.Show api "a b" =
          (Except.error (Error.malformed (GoAny.string "scalar")), vc1)) := by
  refine ⟨?_, ?_, ?_⟩
  · intro tree path e
    constructor
    · exact getConfigFromPath_error_prefix
    · rintro ⟨pre, rest, v, _, hrest, hpath, hres, hv, he⟩
      cases rest with
      | nil => exact absurd rfl hrest
      | cons k ks =>
        rw [hpath, getConfigFromPath_append hres k ks, he]
        simp only [hv]
  · intro api vc vc1 tree path h
    rw [Show_eq api vc vc1 tree path h]
  · intro api vc vc1 h
    rw [Show_eq api vc vc1 _ _ h]
    rfl

/-- A run of C3 on the scalar example: the prefix `a` resolves to a string, one segment
remains, and the navigator reports the malformed tree. -/
theorem getConfigFromPath_error_iff_witness :
    getConfigFromPath (some [("a", GoAny.string "scalar")]) ["a", "b"] =
      Except.error (Error.malformed (GoAny.string "scalar")) :=
  (getConfigFromPath_error_iff.1 (some [("a", GoAny.string "scalar")]) ["a", "b"]
    (Error.malformed (GoAny.string "scalar"))).2
    ⟨["a"], ["b"], GoAny.string "scalar", by simp, by simp, rfl, Resolves.last rfl, rfl, rfl⟩

/-! ## C4 and C5: the batch built by `Update` -/

theorem foldl_append_singleton {α β : Type} (f : α → β) (l : List α) (init : List β) :
    l.foldl (fun acc x => acc ++ [f x]) init = init ++ l.map f := by
  induction l generalizing init with
  | nil => simp
  | cons a t ih => simp [ih]

theorem payload_eq (path : String) (flat : List (String × GoAny)) :
    ConfigResource.Update.payload path flat =
      Operation.delete (strings.Split path ' ') ::
        flat.map (fun pair => Operation.set
          (strings.Split (ConfigResource.Update.prefixpath path pair.1) ' ') pair.2) := by
  unfold ConfigResource.Update.payload
  rw [foldl_append_singleton
    (fun pair : String × GoAny => Operation.set
      (strings.Split (ConfigResource.Update.prefixpath path pair.1) ' ') pair.2)]
  rfl

theorem Split_prefixpath (segs rel : List String) (hne : segs ≠ [])
    (hsegs : ∀ s ∈ segs, s ≠ "" ∧ ' ' ∉ s.data) (hrel : ∀ s ∈ rel, ' ' ∉ s.data) :
    strings.Split
        (ConfigResource.Update.prefixpath (strings.Join segs " ") (strings.Join rel " ")) ' ' =
      segs ++ (if strings.Join rel " " = "" then [] else rel) := by
  have hpath : strings.Join segs " " ≠ "" := Join_ne_empty segs hne (fun s hs => (hsegs s hs).1)
  have hsplit := Split_Join segs hne (fun s hs => (hsegs s hs).2)
  by_cases hr : strings.Join rel " " = ""
  · simp [ConfigResource.Update.prefixpath, hr, hsplit]
  · have hrne : rel ≠ [] := by
      intro e
      apply hr
      simp [e, strings.Join]
    simp only [ConfigResource.Update.prefixpath, hpath, hr, ne_eq, not_false_eq_true,
      and_self, if_true, if_false]
    rw [Split_append_space, hsplit, Split_Join rel hrne hrel]

theorem Update_sent (api : Remote) (decode : String → Except String GoAny)
    (flatten : GoAny → Except String (List (String × GoAny)))
    (vc : VyosConfig) (plan state : ConfigResourceModel) (value : GoAny)
    (flat : List (String × GoAny))
    (hdec : decode plan.Value.ValueString = Except.ok value)
    (hflat : flatten value = Except.ok flat) :
    (ConfigResource.Update api decode flatten vc plan state).2 =
      { vc with sent := vc.sent ++ [RemoteCall.request "configure"
          (Payload.batch (ConfigResource.Update.payload plan.Path.ValueString flat))] } := by
  simp only [ConfigResource.Update, hdec, hflat, VyosConfig.ApiRequest, VyosConfig.call]
  split <;> rename_i h <;> split at h <;> simp_all

/-- C4: for a target path of one or more non-empty, space-free segments joined by single
spaces, and flattener pairs whose relative paths are space-free segments joined by single
spaces, the batch built and sent by `Update` is one delete at the target segments, then
one set per pair in order, at the target segments followed by the segments of the
relative path (none when the relative path is the empty string), carrying the leaf; it
has one operation more than there are pairs. -/
theorem update_batch_is_delete_then_sets (api : Remote)
    (decode : String → Except String GoAny)
    (flatten : GoAny → Except String (List (String × GoAny)))
    (vc : VyosConfig) (plan state : ConfigResourceModel) (value : GoAny)
    (segs : List String) (flat : List (List String × GoAny))
    (hne : segs ≠ []) (hsegs : ∀ s ∈ segs, s ≠ "" ∧ ' ' ∉ s.data)
    (hrel : ∀ p ∈ flat, ∀ s ∈ p.1, ' ' ∉ s.data)
    (hpath : plan.Path.ValueString = strings.Join segs " ")
    (hdec : decode plan.Value.ValueString = Except.ok value)
    (hflat : flatten value = Except.ok (flat.map fun p => (strings.Join p.1 " ", p.2))) :
    ConfigResource.Update.payload (strings.Join segs " ")
        (flat.map fun p => (strings.Join p.1 " ", p.2)) =
      Operation.delete segs :: flat.map (fun p =>
        Operation.set (segs ++ (if strings.Join p.1 " " = "" then [] else p.1)) p.2) ∧
    (ConfigResource.Update api decode flatten vc plan state).2.sent =
      vc.sent ++ [RemoteCall.request "configure" (Payload.batch
        (Operation.delete segs :: flat.map (fun p =>
          Operation.set (segs ++ (if strings.Join p.1 " " = "" then [] else p.1)) p.2)))] ∧
    (ConfigResource.Update.payload (strings.Join segs " ")
        (flat.map fun p => (strings.Join p.1 " ", p.2))).length = 1 + flat.length := by
  have hpay : ConfigResource.Update.payload (strings.Join segs " ")
        (flat.map fun p => (strings.Join p.1 " ", p.2)) =
      Operation.delete segs :: flat.map (fun p =>
        Operation.set (segs ++ (if strings.Join p.1 " " = "" then [] else p.1)) p.2) := by
    rw [payload_eq, Split_Join segs hne (fun s hs => (hsegs s hs).2), List.map_map]
    congr 1
    apply List.map_congr_left
    intro p hp
    simp only [Function.comp_apply]
    rw [Split_prefixpath segs p.1 hne hsegs (hrel p hp)]
  refine ⟨hpay, ?_, ?_⟩
  · rw [Update_sent api decode flatten vc plan state value _ hdec hflat, hpath, hpay]
  · rw [hpay]
    simp [Nat.add_comm]

/-- A run of C4 on the example of the specification: target `x y` and the single pair
of relative path `a` and leaf 1 give the delete at `x`, `y` and the set of 1 at `x`, `y`,
`a`. -/
theorem update_batch_is_delete_then_sets_witness :
    ConfigResource.Update.payload "x y" [("a", GoAny.number 1)] =
      [Operation.delete ["x", "y"], Operation.set ["x", "y", "a"] (GoAny.number 1)] :=
  (update_batch_is_delete_then_sets (fun _ _ => Except.ok GoAny.nil)
    (fun _ => Except.ok (GoAny.map [("a", GoAny.number 1)]))
    (fun _ => Except.ok [("a", GoAny.number 1)])
    (New false "")
    (ConfigResourceModel.mk (TfString.value "x y") (TfString.value "\x7b\"a\": 1\x7d") TfString.null)
    (ConfigResourceModel.mk (TfString.value "x y") TfString.null (TfString.value "x y"))
    (GoAny.map [("a", GoAny.number 1)])
    ["x", "y"] [(["a"], GoAny.number 1)]
    (by simp) (by decide) (by decide) rfl rfl rfl).1

/-- C5, evaluated on the code: `Show` of the empty string navigates with no segment and
returns the whole tree, whereas `Update` with the empty target path sends a delete whose
path is the list holding one empty segment, and a set for an empty relative path carries
that same one-segment list. -/
theorem update_empty_target_path :
    (VyosConfig.mk false "" (some firewallTree) []).Show (fun _ _ => Except.ok GoAny.nil) "" =
      (Except.ok firewallTree.toAny, VyosConfig.mk false "" (some firewallTree) []) ∧
    ConfigResource.Update.payload "" [("a", GoAny.string "v"), ("", GoAny.map [])] =
      [Operation.delete [""], Operation.set ["a"] (GoAny.string "v"),
        Operation.set [""] (GoAny.map [])] ∧
    (ConfigResource.Update (fun _ _ => Except.ok GoAny.nil)
        (fun _ => Except.ok (GoAny.map [("a", GoAny.string "v")]))
        (fun _ => Except.ok [("a", GoAny.string "v")])
        (New false "")
        (ConfigResourceModel.mk (TfString.value "") (TfString.value "\x7b\"a\": \"v\"\x7d")
          (TfString.value ""))
        (ConfigResourceModel.mk (TfString.value "") TfString.null (TfString.value ""))).2.sent =
      [RemoteCall.request "configure" (Payload.batch
        [Operation.delete [""], Operation.set ["a"] (GoAny.string "v")])] := by
  refine ⟨rfl, rfl, rfl⟩

/-! ## C6 to C8: the cache -/

theorem SaveIfRequired_cachedConfig (api : Remote) (vc : VyosConfig) :
    (vc.SaveIfRequired api).2.cachedConfig = vc.cachedConfig := by
  unfold VyosConfig.SaveIfRequired
  by_cases h1 : vc.skipSaving = true
  · simp [h1]
  · by_cases h2 : vc.saveFile = ""
    · cases hr : api vc.sent RemoteCall.configSave <;>
        simp [h1, h2, VyosConfig.call, hr]
    · cases hr : api vc.sent (RemoteCall.configSaveFile vc.saveFile) <;>
        simp [h1, h2, VyosConfig.call, hr]

theorem Set_cachedConfig (api : Remote) (vc : VyosConfig) (path : String) (value : GoAny) :
    (vc.Set api path value).2.cachedConfig = none := by
  unfold VyosConfig.Set
  cases hr : api vc.sent (RemoteCall.configSet path value)
  · simp [VyosConfig.call, hr, VyosConfig.invalidateConfigCache]
  · simp [VyosConfig.call, hr, SaveIfRequired_cachedConfig, VyosConfig.invalidateConfigCache]

theorem Delete_cachedConfig (api : Remote) (vc : VyosConfig) (path : String) :
    (vc.Delete api path).2.cachedConfig = none := by
  unfold VyosConfig.Delete
  cases hr : api vc.sent (RemoteCall.configDelete path)
  · simp [VyosConfig.call, hr, VyosConfig.invalidateConfigCache]
  · simp [VyosConfig.call, hr, SaveIfRequired_cachedConfig, VyosConfig.invalidateConfigCache]

theorem getRemoteConfig_state (api : Remote) (vc : VyosConfig) :
    (vc.getRemoteConfig api).2 =
      { vc with sent := vc.sent ++ [RemoteCall.request "retrieve" Payload.showConfig] } := by
  unfold VyosConfig.getRemoteConfig
  cases hr : api vc.sent (RemoteCall.request "retrieve" Payload.showConfig) with
  | error msg =>
    by_cases hc : strings.Contains msg "could not fetch config" = true <;>
      simp [VyosConfig.call, hr, hc]
  | ok resp =>
    cases hm : resp.assertMap <;> simp [VyosConfig.call, hr, hm]

theorem GetFullConfig_miss_sent (api : Remote) (vc : VyosConfig)
    (h : vc.cachedConfig = none) :
    (vc.GetFullConfig api).2.sent =
      vc.sent ++ [RemoteCall.request "retrieve" Payload.showConfig] := by
  have hs := getRemoteConfig_state api vc
  unfold VyosConfig.GetFullConfig
  simp only [h]
  split <;> rename_i h2 <;> rw [h2] at hs <;> simp only at hs <;> simp [hs]

theorem Update_cachedConfig (api : Remote) (decode : String → Except String GoAny)
    (flatten : GoAny → Except String (List (String × GoAny)))
    (vc : VyosConfig) (plan state : ConfigResourceModel) :
    (ConfigResource.Update api decode flatten vc plan state).2.cachedConfig =
      vc.cachedConfig := by
  cases hd : decode plan.Value.ValueString with
  | error msg => simp [ConfigResource.Update, hd]
  | ok value =>
    cases hf : flatten value with
    | error msg => simp [ConfigResource.Update, hd, hf]
    | ok flat =>
      cases hr : api vc.sent (RemoteCall.request "configure"
          (Payload.batch (ConfigResource.Update.payload plan.Path.ValueString flat))) <;>
        simp [ConfigResource.Update, hd, hf, VyosConfig.ApiRequest, VyosConfig.call, hr]

theorem Show_state (api : Remote) (vc : VyosConfig) (path : String) :
    (vc.Show api path).2 = (vc.GetFullConfig api).2 := by
  unfold VyosConfig.Show
  cases h : vc.GetFullConfig api with
  | mk r vc1 => cases r <;> rfl

/-- C6 fails as stated, at a successful `Update` with a tree in the slot: a fresh
`VyosConfig` that has fetched the firewall tree holds it in its slot, and `Update` of
`firewall name TEST` to `accept`, which goes to the API client by `Request` alone,
succeeds and leaves that tree in the slot, so the slot is not empty afterwards. -/
theorem update_leaves_cached_tree :
    (New false "").GetFullConfig trackingRemote =
      (Except.ok firewallTree, VyosConfig.mk false "" (some firewallTree)
        [RemoteCall.request "retrieve" Payload.showConfig]) ∧
    ConfigResource.Update trackingRemote
        (fun _ => Except.ok (GoAny.map [("default-action", GoAny.string "accept")]))
        (fun _ => Except.ok [("default-action", GoAny.string "accept")])
        (VyosConfig.mk false "" (some firewallTree)
          [RemoteCall.request "retrieve" Payload.showConfig])
        (firewallPlan "\x7b\"default-action\":\"accept\"\x7d")
        (firewallPlan "\x7b\"default-action\":\"drop\"\x7d") =
      (Response.state (firewallPlan "\x7b\"default-action\":\"accept\"\x7d"),
        VyosConfig.mk false "" (some firewallTree)
          [RemoteCall.request "retrieve" Payload.showConfig,
            RemoteCall.request "configure"
              (Payload.batch [Operation.delete ["firewall", "name", "TEST"],
                Operation.set ["firewall", "name", "TEST", "default-action"]
                  (GoAny.string "accept")])]) ∧
    (ConfigResource.Update trackingRemote
        (fun _ => Except.ok (GoAny.map [("default-action", GoAny.string "accept")]))
        (fun _ => Except.ok [("default-action", GoAny.string "accept")])
        (VyosConfig.mk false "" (some firewallTree)
          [RemoteCall.request "retrieve" Payload.showConfig])
        (firewallPlan "\x7b\"default-action\":\"accept\"\x7d")
        (firewallPlan "\x7b\"default-action\":\"drop\"\x7d")).2.cachedConfig =
      some firewallTree :=
  ⟨rfl, rfl, rfl⟩

/-- C6 as amended: `Set` and `Delete` always leave the cache slot empty, whether or not
the remote call succeeds, and a `GetFullConfig` or `Show` on an empty slot issues a
whole-tree fetch; `Update` sends its batch by `Request` and leaves the slot as it was. -/
theorem set_and_delete_clear_cache :
    (∀ (api : Remote) (vc : VyosConfig) (path : String) (value : GoAny),
        (vc.Set api path value).2.cachedConfig = none) ∧
    (∀ (api : Remote) (vc : VyosConfig) (path : String),
        (vc.Delete api path).2.cachedConfig = none) ∧
    (∀ (api : Remote) (vc : VyosConfig), vc.cachedConfig = none →
        (vc.GetFullConfig api).2.sent =
          vc.sent ++ [RemoteCall.request "retrieve" Payload.showConfig]) ∧
    (∀ (api : Remote) (vc : VyosConfig) (path : String), vc.cachedConfig = none →
        (vc.Show api path).2.sent =
          vc.sent ++ [RemoteCall.request "retrieve" Payload.showConfig]) ∧
    (∀ (api : Remote) (decode : String → Except String GoAny)
        (flatten : GoAny → Except String (List (String × GoAny)))
        (vc : VyosConfig) (plan state : ConfigResourceModel),
        (ConfigResource.Update api decode flatten vc plan state).2.cachedConfig =
          vc.cachedConfig) := by
  refine ⟨Set_cachedConfig, Delete_cachedConfig, GetFullConfig_miss_sent, ?_,
    Update_cachedConfig⟩
  intro api vc path h
  rw [Show_state, GetFullConfig_miss_sent api vc h]

/-- A run of amended C6: with the firewall tree cached, a `Set` of `default-action`
empties the slot and logs the set and the save, and the `Show` that follows fetches the
whole tree again and answers from the fetched tree. -/
theorem set_and_delete_clear_cache_witness :
    (VyosConfig.mk false "" (some firewallTree) []).Set trackingRemote
        "firewall name TEST default-action" (GoAny.string "accept") =
      (none, VyosConfig.mk false "" none
        [RemoteCall.configSet "firewall name TEST default-action" (GoAny.string "accept"),
          RemoteCall.configSave]) ∧
    ((VyosConfig.mk false "" none
        [RemoteCall.configSet "firewall name TEST default-action" (GoAny.string "accept"),
          RemoteCall.configSave]).Show trackingRemote
        "firewall name TEST default-action").1 = Except.ok (GoAny.string "accept") ∧
    ((VyosConfig.mk false "" none
        [RemoteCall.configSet "firewall name TEST default-action" (GoAny.string "accept"),
          RemoteCall.configSave]).Show trackingRemote
        "firewall name TEST default-action").2.sent =
      [RemoteCall.configSet "firewall name TEST default-action" (GoAny.string "accept"),
        RemoteCall.configSave] ++ [RemoteCall.request "retrieve" Payload.showConfig] :=
  ⟨rfl, rfl, set_and_delete_clear_cache.2.2.2.1 trackingRemote
    (VyosConfig.mk false "" none
      [RemoteCall.configSet "firewall name TEST default-action" (GoAny.string "accept"),
        RemoteCall.configSave]) "firewall name TEST default-action" rfl⟩

/-- C8: `getRemoteConfig` turns a failed fetch whose error text contains
`could not fetch config` into the nil tree with no error, returns any other error of the
fetch as it is, returns the object of a successful response, and reports an error for a
successful response that is not an object. -/
theorem getRemoteConfig_cases :
    (∀ (api : Remote) (vc : VyosConfig) (msg : String),
        api vc.sent (RemoteCall.request "retrieve" Payload.showConfig) = Except.error msg →
        strings.Contains msg "could not fetch config" = true →
        (vc.getRemoteConfig api).1 = Except.ok none) ∧
    (∀ (api : Remote) (vc : VyosConfig) (msg : String),
        api vc.sent (RemoteCall.request "retrieve" Payload.showConfig) = Except.error msg →
        strings.Contains msg "could not fetch config" = false →
        (vc.getRemoteConfig api).1 = Except.error (Error.external msg)) ∧
    (∀ (api : Remote) (vc : VyosConfig) (resp : GoAny) (obj : GoMap),
        api vc.sent (RemoteCall.request "retrieve" Payload.showConfig) = Except.ok resp →
        resp.assertMap = some obj →
        (vc.getRemoteConfig api).1 = Except.ok obj) ∧
    (∀ (api : Remote) (vc : VyosConfig) (m : List (String × GoAny)),
        api vc.sent (RemoteCall.request "retrieve" Payload.showConfig) =
          Except.ok (GoAny.map m) →
        (vc.getRemoteConfig api).1 = Except.ok (some m)) ∧
    (∀ (api : Remote) (vc : VyosConfig) (resp : GoAny),
        api vc.sent (RemoteCall.request "retrieve" Payload.showConfig) = Except.ok resp →
        resp.assertMap = none →
        (vc.getRemoteConfig api).1 = Except.error Error.unexpectedResponse) := by
  refine ⟨?_, ?_, ?_, ?_, ?_⟩
  · intro api vc msg h hc
    simp [VyosConfig.getRemoteConfig, VyosConfig.call, h, hc]
  · intro api vc msg h hc
    simp [VyosConfig.getRemoteConfig, VyosConfig.call, h, hc]
  · intro api vc resp obj h ho
    simp [VyosConfig.getRemoteConfig, VyosConfig.call, h, ho]
  · intro api vc m h
    simp [VyosConfig.getRemoteConfig, VyosConfig.call, h, GoAny.assertMap]
  · intro api vc resp h ho
    simp [VyosConfig.getRemoteConfig, VyosConfig.call, h, ho]

/-- A run of C8, one remote per case: the recognised text, another error, an object and
a response that is a string. -/
theorem getRemoteConfig_cases_witness :
    ((New false "").getRemoteConfig
        (fun _ _ => Except.error "path is empty: could not fetch config")).1 =
      Except.ok none ∧
    ((New false "").getRemoteConfig (fun _ _ => Except.error "connection refused")).1 =
      Except.error (Error.external "connection refused") ∧
    ((New false "").getRemoteConfig (fun _ _ => Except.ok firewallTree.toAny)).1 =
      Except.ok firewallTree ∧
    ((New false "").getRemoteConfig (fun _ _ => Except.ok (GoAny.string "ok"))).1 =
      Except.error Error.unexpectedResponse :=
  ⟨getRemoteConfig_cases.1 _ (New false "") "path is empty: could not fetch config" rfl
      (by decide),
    getRemoteConfig_cases.2.1 _ (New false "") "connection refused" rfl (by decide),
    getRemoteConfig_cases.2.2.1 _ (New false "") firewallTree.toAny firewallTree rfl rfl,
    getRemoteConfig_cases.2.2.2.2 _ (New false "") (GoAny.string "ok") rfl rfl⟩

/-! ## C9: the flattener -/

theorem Flatten_map_cons (e : String × GoAny) (es : List (String × GoAny)) :
    Flatten (GoAny.map (e :: es)) =
      (sortByKey (e :: es)).flatMap fun x => (Flatten x.2).map fun p => (x.1 :: p.1, p.2) := by
  rw [Flatten, List.flatMap_def, List.flatMap_def]
  rw [List.attach_map_val (sortByKey (e :: es))
    (fun x => (Flatten x.2).map fun p => (x.1 :: p.1, p.2))]

theorem sortByKey_sorted (m : List (String × GoAny)) :
    (sortByKey m).Sorted (fun a b => a.1 ≤ b.1) :=
  haveI : IsTotal (String × GoAny) (fun a b => a.1 ≤ b.1) := ⟨fun a b => le_total a.1 b.1⟩
  haveI : IsTrans (String × GoAny) (fun a b => a.1 ≤ b.1) :=
    ⟨fun _ _ _ h1 h2 => le_trans h1 h2⟩
  List.sorted_insertionSort _ m

theorem sortByKey_perm (m : List (String × GoAny)) : (sortByKey m).Perm m :=
  List.perm_insertionSort _ m

theorem sortByKey_strict (m : List (String × GoAny)) (hnd : (m.map Prod.fst).Nodup) :
    (sortByKey m).Sorted (fun a b => a.1 < b.1) := by
  have hnd2 : ((sortByKey m).map Prod.fst).Nodup :=
    ((sortByKey_perm m).map Prod.fst).nodup_iff.mpr hnd
  have hp : (sortByKey m).Pairwise (fun a b => a.1 ≠ b.1) := by
    rw [List.Nodup, List.pairwise_map] at hnd2
    exact hnd2
  exact ((sortByKey_sorted m).and hp).imp (fun h => lt_of_le_of_ne h.1 h.2)

theorem sortByKey_eq_of_perm {m m2 : List (String × GoAny)}
    (hnd : (m.map Prod.fst).Nodup) (hp : m.Perm m2) : sortByKey m = sortByKey m2 := by
  haveI : IsAntisymm (String × GoAny) (fun a b => a.1 < b.1) :=
    ⟨fun a b h1 h2 => absurd h1 (lt_asymm h2)⟩
  have hnd2 : (m2.map Prod.fst).Nodup := (hp.map Prod.fst).nodup_iff.mp hnd
  exact List.eq_of_perm_of_sorted
    (((sortByKey_perm m).trans hp).trans (sortByKey_perm m2).symm)
    (sortByKey_strict m hnd) (sortByKey_strict m2 hnd2)

theorem Flatten_map_eq (m : List (String × GoAny)) (hne : m ≠ []) :
    Flatten (GoAny.map m) =
      ((m.map fun e => (e.1, Flatten e.2)).insertionSort (fun a b => a.1 ≤ b.1)).flatMap
        fun x => x.2.map fun p => (x.1 :: p.1, p.2) := by
  cases m with
  | nil => exact absurd rfl hne
  | cons e es =>
    rw [Flatten_map_cons, ← List.map_insertionSort (fun a b : String × GoAny => a.1 ≤ b.1)
      (fun a b : String × List (List String × GoAny) => a.1 ≤ b.1)
      (fun e : String × GoAny => (e.1, Flatten e.2)) (e :: es) (fun _ _ _ _ => Iff.rfl),
      List.flatMap_map]
    rfl

theorem Flatten_reorder {v v2 : GoAny} (h : Reorder v v2) : Flatten v = Flatten v2 := by
  induction h with
  | refl v => rfl
  | trans _ _ ih1 ih2 => exact ih1.trans ih2
  | perm hnd hp =>
    rename_i m m2
    cases m with
    | nil => rw [List.nil_perm.mp hp]
    | cons e es =>
      cases m2 with
      | nil => exact absurd hp.symm (by simp)
      | cons e2 es2 => rw [Flatten_map_cons, Flatten_map_cons, sortByKey_eq_of_perm hnd hp]
  | child _ ih =>
    rw [Flatten_map_eq _ (by simp), Flatten_map_eq _ (by simp)]
    simp only [List.map_cons, ih]


/-- C9: the flattener of the specification visits the entries of an object in key order:
its result on an object with entries is the concatenation, over the entries sorted by
key, of the flattened child with the key prepended to every relative path; the sorted
entries are a rearrangement of the entries in ascending key order; hence the result is
the same for every iteration order of the objects of the input; and the object with `a`
holding `b` = 1 and `c` = 2 flattens to the pairs at `a b` and `a c`, in whichever order
its entries are listed. -/
theorem flatten_visits_sorted_keys :
    (∀ (e : String × GoAny) (es : List (String × GoAny)),
        Flatten (GoAny.map (e :: es)) =
          (sortByKey (e :: es)).flatMap fun x =>
            (Flatten x.2).map fun p => (x.1 :: p.1, p.2)) ∧
    (∀ m : List (String × GoAny),
        (sortByKey m).Sorted (fun a b => a.1 ≤ b.1) ∧ (sortByKey m).Perm m) ∧
    (∀ v v2 : GoAny, Reorder v v2 → Flatten v = Flatten v2) ∧
    Flatten (GoAny.map [("a", GoAny.map [("b", GoAny.number 1), ("c", GoAny.number 2)])]) =
      [(["a", "b"], GoAny.number 1), (["a", "c"], GoAny.number 2)] ∧
    Flatten (GoAny.map [("a", GoAny.map [("c", GoAny.number 2), ("b", GoAny.number 1)])]) =
      [(["a", "b"], GoAny.number 1), (["a", "c"], GoAny.number 2)] := by
  refine ⟨Flatten_map_cons, fun m => ⟨sortByKey_sorted m, sortByKey_perm m⟩,
    fun _ _ h => Flatten_reorder h, ?_, ?_⟩
  · simp [Flatten, sortByKey, List.attach, List.attachWith]
  · simp [Flatten, sortByKey, List.attach, List.attachWith]

/-- A run of C9: the example object with the entries of the inner object listed as `c`,
`b` is a reordering of the one listing them as `b`, `c`, and both flatten alike. -/
theorem flatten_visits_sorted_keys_witness :
    Reorder
      (GoAny.map [("a", GoAny.map [("c", GoAny.number 2), ("b", GoAny.number 1)])])
      (GoAny.map [("a", GoAny.map [("b", GoAny.number 1), ("c", GoAny.number 2)])]) ∧
    Flatten (GoAny.map [("a", GoAny.map [("c", GoAny.number 2), ("b", GoAny.number 1)])]) =
      Flatten (GoAny.map [("a", GoAny.map [("b", GoAny.number 1), ("c", GoAny.number 2)])]) :=
  have hre : Reorder
      (GoAny.map [("a", GoAny.map [("c", GoAny.number 2), ("b", GoAny.number 1)])])
      (GoAny.map [("a", GoAny.map [("b", GoAny.number 1), ("c", GoAny.number 2)])]) :=
    Reorder.child (Reorder.perm (by decide) (List.Perm.swap _ _ _))
  ⟨hre, flatten_visits_sorted_keys.2.2.1 _ _ hre⟩

/-! ## C10: the id of a created or imported resource -/

theorem Create_write_state (api : Remote) (decode : String → Except String GoAny)
    (sent sent1 : List RemoteCall) (data st : ConfigResourceModel)
    (h : ConfigResource.Create.write api decode sent data = (Response.state st, sent1)) :
    st = { data with Id := TfString.value data.Path.ValueString } := by
  unfold ConfigResource.Create.write at h
  split at h
  · cases h
  · split at h
    · cases h
    · cases h
      rfl

theorem Create_state (api : Remote) (decode : String → Except String GoAny)
    (sent sent1 : List RemoteCall) (data st : ConfigResourceModel)
    (h : ConfigResource.Create api decode sent data = (Response.state st, sent1)) :
    st = { data with Id := TfString.value data.Path.ValueString } := by
  unfold ConfigResource.Create at h
  simp only at h
  split at h
  · cases h
  · split at h
    · exact Create_write_state api decode _ sent1 data st h
    · split at h
      · cases h
      · split at h
        · exact Create_write_state api decode _ sent1 data st h
        · cases h

/-- C10: every state saved by `Create` keeps the planned path and value and has the id
set to the text of the planned path, so that for a known path the id equals the path;
`ImportState` sets both the id and the path to the import ID and leaves the value. -/
theorem create_and_import_id_is_path :
    (∀ (api : Remote) (decode : String → Except String GoAny)
        (sent sent1 : List RemoteCall) (plan st : ConfigResourceModel),
        ConfigResource.Create api decode sent plan = (Response.state st, sent1) →
        st.Id = TfString.value plan.Path.ValueString ∧ st.Path = plan.Path ∧
          st.Value = plan.Value) ∧
    (∀ (api : Remote) (decode : String → Except String GoAny)
        (sent sent1 : List RemoteCall)
        (path : String) (value id : TfString) (st : ConfigResourceModel),
        ConfigResource.Create api decode sent
            { Path := TfString.value path, Value := value, Id := id } =
          (Response.state st, sent1) →
        st.Id = st.Path ∧ st.Path = TfString.value path ∧ st.Value = value) ∧
    (∀ (state : ConfigResourceModel) (ID : String),
        (ConfigResource.ImportState state ID).Id = TfString.value ID ∧
        (ConfigResource.ImportState state ID).Path = TfString.value ID ∧
        (ConfigResource.ImportState state ID).Id = (ConfigResource.ImportState state ID).Path ∧
        (ConfigResource.ImportState state ID).Value = state.Value) := by
  refine ⟨?_, ?_, fun _ _ => ⟨rfl, rfl, rfl, rfl⟩⟩
  · intro api decode sent sent1 plan st h
    rw [Create_state api decode sent sent1 plan st h]
    exact ⟨rfl, rfl, rfl⟩
  · intro api decode sent sent1 path value id st h
    rw [Create_state api decode sent sent1 _ st h]
    exact ⟨rfl, rfl, rfl⟩

/-- A run of C10: on a remote that finds nothing at the parent path and accepts every
call, creating the path `firewall name TEST` succeeds after one `Show` and one `Set`,
and the saved state has that text as id and as path. -/
theorem create_and_import_id_is_path_witness :
    ∃ (st : ConfigResourceModel) (sent1 : List RemoteCall),
      ConfigResource.Create (fun _ _ => Except.ok GoAny.nil)
          (fun _ => Except.ok (GoAny.map [("default-action", GoAny.string "drop")]))
          []
          { Path := TfString.value "firewall name TEST",
            Value := TfString.value "\x7b\"default-action\":\"drop\"\x7d",
            Id := TfString.unknown } =
        (Response.state st, sent1) ∧
      st.Id = st.Path ∧ st.Path = TfString.value "firewall name TEST" ∧
      st.Value = TfString.value "\x7b\"default-action\":\"drop\"\x7d" :=
  ⟨{ Path := TfString.value "firewall name TEST",
      Value := TfString.value "\x7b\"default-action\":\"drop\"\x7d",
      Id := TfString.value "firewall name TEST" },
    [RemoteCall.configShow "firewall name",
      RemoteCall.configSet "firewall name TEST"
        (GoAny.map [("default-action", GoAny.string "drop")])],
    rfl,
    create_and_import_id_is_path.2.1 (fun _ _ => Except.ok GoAny.nil)
      (fun _ => Except.ok (GoAny.map [("default-action", GoAny.string "drop")]))
      [] _ "firewall name TEST" (TfString.value "\x7b\"default-action\":\"drop\"\x7d")
      TfString.unknown _ rfl⟩

/-! ## C11: the existence check of `Create` -/

theorem Create_write_ne_panic (api : Remote) (decode : String → Except String GoAny)
    (sent : List RemoteCall) (data : ConfigResourceModel) :
    (ConfigResource.Create.write api decode sent data).1 ≠ Response.panic := by
  cases hd : decode data.Value.ValueString with
  | error msg => simp [ConfigResource.Create.write, hd]
  | ok jsonValue =>
    cases hs : api sent (RemoteCall.configSet data.Path.ValueString jsonValue) <;>
      simp [ConfigResource.Create.write, ConfigResource.call, hd, hs]

theorem Create_of_show_error (api : Remote) (decode : String → Except String GoAny)
    (sent : List RemoteCall) (data : ConfigResourceModel) (msg : String)
    (h : api sent (RemoteCall.configShow
        (strings.Join (strings.Split data.Path.ValueString ' ').dropLast " ")) =
      Except.error msg) :
    ConfigResource.Create api decode sent data =
      (Response.diagnostics (Diag.error (Error.external msg)),
        sent ++ [RemoteCall.configShow
          (strings.Join (strings.Split data.Path.ValueString ' ').dropLast " ")]) := by
  simp [ConfigResource.Create, ConfigResource.call, h]

theorem Create_of_show_ok (api : Remote) (decode : String → Except String GoAny)
    (sent : List RemoteCall) (data : ConfigResourceModel) (parent : GoAny)
    (h : api sent (RemoteCall.configShow
        (strings.Join (strings.Split data.Path.ValueString ' ').dropLast " ")) =
      Except.ok parent) :
    ConfigResource.Create api decode sent data =
      if parent.isNil then
        ConfigResource.Create.write api decode
          (sent ++ [RemoteCall.configShow
            (strings.Join (strings.Split data.Path.ValueString ' ').dropLast " ")]) data
      else
        match parent.assertMap with
        | none =>
          (Response.panic, sent ++ [RemoteCall.configShow
            (strings.Join (strings.Split data.Path.ValueString ' ').dropLast " ")])
        | some m =>
          if (m.indexOrNil ((strings.Split data.Path.ValueString ' ').getLastD "")).isNil then
            ConfigResource.Create.write api decode
              (sent ++ [RemoteCall.configShow
                (strings.Join (strings.Split data.Path.ValueString ' ').dropLast " ")]) data
          else
            (Response.diagnostics (Diag.alreadyExists data.Path.ValueString
              (m.indexOrNil ((strings.Split data.Path.ValueString ' ').getLastD ""))),
              sent ++ [RemoteCall.configShow
                (strings.Join (strings.Split data.Path.ValueString ' ').dropLast " ")]) := by
  simp [ConfigResource.Create, ConfigResource.call, h]

theorem Create_panic_iff (api : Remote) (decode : String → Except String GoAny)
    (sent : List RemoteCall) (data : ConfigResourceModel) :
    (ConfigResource.Create api decode sent data).1 = Response.panic ↔
      ∃ parent,
        api sent (RemoteCall.configShow
            (strings.Join (strings.Split data.Path.ValueString ' ').dropLast " ")) =
          Except.ok parent ∧
        parent.isNil = false ∧ parent.assertMap = none := by
  cases hs : api sent (RemoteCall.configShow
      (strings.Join (strings.Split data.Path.ValueString ' ').dropLast " ")) with
  | error msg =>
    rw [Create_of_show_error api decode sent data msg hs]
    simp
  | ok parent =>
    rw [Create_of_show_ok api decode sent data parent hs]
    constructor
    · intro h
      by_cases hn : parent.isNil = true
      · rw [if_pos hn] at h
        exact absurd h (Create_write_ne_panic api decode _ data)
      · rw [if_neg hn] at h
        cases hm : parent.assertMap with
        | none => exact ⟨parent, rfl, by simpa using hn, hm⟩
        | some m =>
          simp only [hm] at h
          split at h
          · exact absurd h (Create_write_ne_panic api decode _ data)
          · cases h
    · rintro ⟨p, heq, hn, hm⟩
      cases heq
      rw [if_neg (by simp [hn])]
      simp only [hm]

/-- C11: `Create` ends in a run-time panic exactly when the `Show` of the parent path
answers, without error, a value that is neither nil nor a map; so its existence check is
safe exactly when the parent is absent or null or is an object, and a failing `Show`
gives a diagnostic.  On a device holding the string `x` at `a`, where `Show` of `a`
answers `x`, creating `a b` panics after that one call instead of giving a diagnostic;
with an absent parent the value is set and the state saved; with an object parent the
outcome is the "already exists" diagnostic or the saved state. -/
theorem create_check_panics_on_non_object_parent :
    (∀ (api : Remote) (decode : String → Except String GoAny) (sent : List RemoteCall)
        (data : ConfigResourceModel),
        (ConfigResource.Create api decode sent data).1 = Response.panic ↔
          ∃ parent,
            api sent (RemoteCall.configShow
                (strings.Join (strings.Split data.Path.ValueString ' ').dropLast " ")) =
              Except.ok parent ∧
            parent.isNil = false ∧ parent.assertMap = none) ∧
    (∀ (api : Remote) (decode : String → Except String GoAny) (sent : List RemoteCall)
        (data : ConfigResourceModel) (msg : String),
        api sent (RemoteCall.configShow
            (strings.Join (strings.Split data.Path.ValueString ' ').dropLast " ")) =
          Except.error msg →
        ConfigResource.Create api decode sent data =
          (Response.diagnostics (Diag.error (Error.external msg)),
            sent ++ [RemoteCall.configShow
              (strings.Join (strings.Split data.Path.ValueString ' ').dropLast " ")])) ∧
    ConfigResource.Create scalarRemote (fun _ => Except.ok (GoAny.map [])) []
        { Path := TfString.value "a b", Value := TfString.value "\x7b\x7d",
          Id := TfString.unknown } =
      (Response.panic, [RemoteCall.configShow "a"]) ∧
    ConfigResource.Create scalarRemote (fun _ => Except.ok (GoAny.map [])) []
        { Path := TfString.value "c d", Value := TfString.value "\x7b\x7d",
          Id := TfString.unknown } =
      (Response.state
          { Path := TfString.value "c d", Value := TfString.value "\x7b\x7d",
            Id := TfString.value "c d" },
        [RemoteCall.configShow "c", RemoteCall.configSet "c d" (GoAny.map [])]) ∧
    ConfigResource.Create (fun _ _ => Except.ok (GoAny.map [("b", GoAny.string "y")]))
        (fun _ => Except.ok (GoAny.map [])) []
        { Path := TfString.value "a b", Value := TfString.value "\x7b\x7d",
          Id := TfString.unknown } =
      (Response.diagnostics (Diag.alreadyExists "a b" (GoAny.string "y")),
        [RemoteCall.configShow "a"]) ∧
    ConfigResource.Create (fun _ _ => Except.ok (GoAny.map [("b", GoAny.string "y")]))
        (fun _ => Except.ok (GoAny.map [])) []
        { Path := TfString.value "a c", Value := TfString.value "\x7b\x7d",
          Id := TfString.unknown } =
      (Response.state
          { Path := TfString.value "a c", Value := TfString.value "\x7b\x7d",
            Id := TfString.value "a c" },
        [RemoteCall.configShow "a", RemoteCall.configSet "a c" (GoAny.map [])]) :=
  ⟨Create_panic_iff, Create_of_show_error, rfl, rfl, rfl, rfl⟩

/-- A run of C11 on the example: the `Show` of the parent path `a` answers the string
`x`, which is neither nil nor a map, and `Create` of `a b` panics. -/
theorem create_check_panics_on_non_object_parent_witness :
    scalarRemote [] (RemoteCall.configShow "a") = Except.ok (GoAny.string "x") ∧
    (ConfigResource.Create scalarRemote (fun _ => Except.ok (GoAny.map [])) []
        { Path := TfString.value "a b", Value := TfString.value "\x7b\x7d",
          Id := TfString.unknown }).1 = Response.panic :=
  ⟨rfl, (create_check_panics_on_non_object_parent.1 scalarRemote
    (fun _ => Except.ok (GoAny.map [])) []
    { Path := TfString.value "a b", Value := TfString.value "\x7b\x7d",
      Id := TfString.unknown }).2 ⟨GoAny.string "x", rfl, rfl, rfl⟩⟩

end Vyos
